import Mathlib

/-!
Verification of the Outliers backend job admission, lifecycle and event-audit
engine against its natural-language specification.

The definitions below are a shallow embedding of the TypeScript source:
  * `src/lib/policies/jobs.policy.ts`  — policy engine (`authorizeJobCreation`)
  * `src/lib/jobs-events.ts`           — event log (`appendJobEvent`, `transitionJobStatus`)
  * `src/controllers/v1/jobs.controller.ts` — lifecycle controller
    (`createJob`, `startJob`, `getJobById`, `cancelJob`, `jobWebhook`)
  * `src/lib/artifacts.ts`             — artifact store (`writeJsonArtifact`,
    `buildArtifactUri`, `extractFilenameFromUri`)
  * `src/controllers/v1/artifacts.controller.ts` — download endpoint
  * `src/pet/smpc.ts`                  — SMPC adapter stub (`runSMPC`)

Database rows are lists of records; Prisma queries become list operations
(`findFirst` = `List.find?`, `findMany where` = `List.filter`, `updateMany` =
conditional `List.map` plus a row count).  UUID primary keys are abstracted to
`Nat`; strings that are inspected character by character (artifact paths and
URIs) are `List Char`.  Each mutating endpoint is a pure function from the
database state (plus its inputs) to a response paired with the new state.
-/

namespace Outliers

/-- Character-level strings, used for artifact paths, filenames and URIs. -/
abbrev Str := List Char

abbrev OrgId := Nat
abbrev CollabId := Nat
abbrev DatasetId := Nat
abbrev JobId := Nat

/-- Job status enum (Prisma `JobStatus`). -/
inductive JobStatus
  | PENDING | RUNNING | SUCCEEDED | FAILED | CANCELED
  deriving DecidableEq

/-- Job type enum (Prisma `JobType`). -/
inductive JobType
  | SMPC | TEE
  deriving DecidableEq

/-- Job event type enum (Prisma `JobEventType`). -/
inductive JobEventType
  | QUEUED | STARTED | PROGRESS | COMPLETED | FAILED | CALLBACK | STATUS_CHANGE
  deriving DecidableEq

/-- Collaboration participant role (Prisma `CollaborationRole`). -/
inductive ParticipantRole
  | PROVIDER | CONSUMER | BOTH
  deriving DecidableEq

/-- A `Collaboration` row: `id`, `ownerOrgId` (the fields the core reads). -/
structure Collaboration where
  id : CollabId
  ownerOrgId : OrgId
  deriving DecidableEq

/-- A `CollaborationParticipant` row: `(collaborationId, orgId)` with a role. -/
structure CollaborationParticipant where
  collaborationId : CollabId
  orgId : OrgId
  role : ParticipantRole
  deriving DecidableEq

/-- A `Dataset` row: `id` and owning `orgId` (the fields the policy reads). -/
structure Dataset where
  id : DatasetId
  orgId : OrgId
  deriving DecidableEq

/-- A `Consent` row; the policy only reads its `datasetId`. -/
structure Consent where
  datasetId : DatasetId
  deriving DecidableEq

/-- SMPC aggregate operation (`smpcSpecSchema.operation`). -/
inductive SmpcOperation
  | COUNT | SUM | AVG
  deriving DecidableEq

/-- One entry of `spec.datasets` (`jobDatasetRefSchema`). -/
structure DatasetRef where
  datasetId : DatasetId
  fields : List String
  deriving DecidableEq

/-- An SMPC job specification (`SmpcSpec` in `jobs.policy.ts` /
`SmpcRunInput` in `smpc.ts`).  `groupBy` and `filters` are carried but the
source only type-checks them; the field filters' `value : any` is dropped. -/
structure SmpcSpec where
  operation : SmpcOperation
  datasets : List DatasetRef
  groupBy : List String := []
  filters : List (String × String) := []
  deriving DecidableEq

/-- The stored `input` column of a job: the validated request union
`{type: "SMPC", spec} | {type: "TEE", spec: any}`.  `sanitizeJobInputForStorage`
(a JSON round-trip) is the identity on these structured values. -/
inductive JobInput
  | smpc (spec : SmpcSpec)
  | tee
  deriving DecidableEq

/-- Stub SMPC result values produced by `runSMPC`: `{total:1337}` for COUNT,
`{sum:424242}` for SUM, `{avg:123.45}` for AVG (the AVG float payload is an
opaque constant here; no claim inspects it). -/
inductive SmpcResult
  | total (n : Nat)
  | sum (n : Nat)
  | avg
  deriving DecidableEq

/-- A `Job` row, with the columns the core reads and writes. -/
structure Job where
  id : JobId
  collaborationId : CollabId
  type : JobType
  status : JobStatus
  input : JobInput
  artifactUri : Option Str := none
  result : Option SmpcResult := none
  deriving DecidableEq

/-- Structured event payloads used by the controllers (the source stores
free-form JSON; only these shapes are ever written by the core). -/
inductive EventData
  | empty
  | createdReason
  | artifact (uri : Option Str)
  | errorMessage (msg : String)
  | cancelReason (reason : Option String)
  | note (s : String)
  | webhook (d : Option String)
  deriving DecidableEq

/-- A `JobEvent` row.  Events are only ever appended, never updated. -/
structure JobEvent where
  jobId : JobId
  type : JobEventType
  oldStatus : Option JobStatus := none
  newStatus : Option JobStatus := none
  data : EventData := .empty
  deriving DecidableEq

/-- The authoritative store: one list per table, plus the id sequence used for
freshly created jobs.  `events` is ordered by creation time (appends go to the
back). -/
structure Db where
  collaborations : List Collaboration
  participants : List CollaborationParticipant
  datasets : List Dataset
  consents : List Consent
  jobs : List Job
  events : List JobEvent
  nextJobId : JobId
  deriving DecidableEq

/-- JS `[...new Set(xs)]` / a Prisma `groupBy` key list: the distinct elements
of a list.  Only the size and membership of these sets are consumed by the
policy, so `List.dedup` (which agrees with the JS set on both) embeds them. -/
def jsSet {α : Type} [DecidableEq α] (l : List α) : List α := l.dedup

/-- Result of the policy engine: `{ok:true} | {ok:false, reason}`. -/
inductive AuthzResult
  | ok
  | deny (reason : String)
  deriving DecidableEq

/-- `authorizeJobCreation` (`src/lib/policies/jobs.policy.ts`), translated
clause by clause:
1. the collaboration exists and the caller is its owner or a participant,
2. the caller has a submitting role (a participant row's role, or implicitly
   `BOTH` for the owner),
3. for SMPC: the `findMany` row count over the referenced dataset ids equals
   the length of the reference list, the distinct participant orgs among the
   dataset owners equal the distinct dataset owners, and the consent groups
   cover as many dataset ids as the reference list has entries. -/
def authorizeJobCreation (db : Db) (callerOrgId : OrgId) (collaborationId : CollabId)
    (type : JobType) (spec : SmpcSpec) : AuthzResult :=
  match db.collaborations.find? (fun c =>
      decide (c.id = collaborationId) &&
      (decide (c.ownerOrgId = callerOrgId) ||
        db.participants.any (fun p =>
          decide (p.collaborationId = collaborationId) && decide (p.orgId = callerOrgId)))) with
  | none => .deny "COLLAB_NOT_FOUND_OR_FORBIDDEN"
  | some collab =>
    let part := db.participants.find? (fun p =>
      decide (p.collaborationId = collaborationId) && decide (p.orgId = callerOrgId))
    let role : Option ParticipantRole :=
      match part with
      | some p => some p.role
      | none => if collab.ownerOrgId = callerOrgId then some .BOTH else none
    match role with
    | none => .deny "NOT_A_PARTICIPANT"
    | some r =>
      if type = .SMPC &&
          !([ParticipantRole.PROVIDER, .CONSUMER, .BOTH].any (fun x => decide (x = r))) then
        .deny "ROLE_FORBIDDEN"
      else if type = .SMPC then
        let datasetIds := spec.datasets.map (·.datasetId)
        let datasets := db.datasets.filter (fun d => datasetIds.contains d.id)
        if !decide (datasets.length = datasetIds.length) then
          .deny "DATASET_NOT_FOUND"
        else
          let datasetOrgIds := jsSet (datasets.map (·.orgId))
          let memberOrgIds := (db.participants.filter (fun p =>
            decide (p.collaborationId = collaborationId) && datasetOrgIds.contains p.orgId)).map (·.orgId)
          if !decide ((jsSet memberOrgIds).length = datasetOrgIds.length) then
            .deny "DATASET_ORG_NOT_PARTICIPANT"
          else
            let consentGroups := jsSet ((db.consents.filter (fun c =>
              datasetIds.contains c.datasetId)).map (·.datasetId))
            if !decide (consentGroups.length = datasetIds.length) then
              .deny "MISSING_CONSENT"
            else .ok
      else .ok

/-- `sanitizeJobInputForStorage` (`jobs.policy.ts`): a JSON round-trip, which
is the identity on the structured inputs this embedding carries. -/
def sanitizeJobInputForStorage (input : JobInput) : JobInput := input

/-- `appendJobEvent` (`src/lib/jobs-events.ts`): append one immutable row. -/
def appendJobEvent (db : Db) (ev : JobEvent) : Db :=
  { db with events := db.events ++ [ev] }

/-- `transitionJobStatus` (`src/lib/jobs-events.ts`): the compare-and-set
primitive.  `prisma.job.updateMany({where:{id, status:from}})` updates every
row matching both fields and reports the row count; a count other than one
throws `INVALID_TRANSITION` (modelled as `Except.error`, leaving the store
untouched), otherwise the matching row is updated and the transition event
appended. -/
def transitionJobStatus (db : Db) (jobId : JobId) (fromStatus toStatus : JobStatus)
    (eventType : JobEventType) (data : EventData := .empty) : Except String Db :=
  let matched := db.jobs.filter (fun j => decide (j.id = jobId) && decide (j.status = fromStatus))
  if !decide (matched.length = 1) then
    .error "INVALID_TRANSITION"
  else
    let db1 := { db with jobs := db.jobs.map (fun j =>
      if decide (j.id = jobId) && decide (j.status = fromStatus) then
        { j with status := toStatus } else j) }
    .ok (appendJobEvent db1 {
      jobId, type := eventType, oldStatus := some fromStatus,
      newStatus := some toStatus, data })

/-- Endpoint responses of the jobs controller, tagged with their HTTP status
and, for errors, the exact `{error:{code, message}}` body. -/
inductive JobsResponse
  | created (job : Job)
  | okTrue
  | jobDetail (job : Job) (events : List JobEvent)
  | error (status : Nat) (code : String) (message : String)
  deriving DecidableEq

/-- HTTP status code of a response (`201` for creation, `200` for `ok`/detail). -/
def JobsResponse.statusCode : JobsResponse → Nat
  | .created _ => 201
  | .okTrue => 200
  | .jobDetail _ _ => 200
  | .error s _ _ => s

/-- The `POST /v1/jobs` request body (`createJobBodySchema`), after
validation. -/
structure CreateJobBody where
  collaborationId : CollabId
  type : JobType
  input : JobInput
  deriving DecidableEq

/-- The spec handed to the policy engine by `createJob`:
`body.input.type === "SMPC" ? body.input.spec : {}`.  The `{}` arm is only
read when `type` is `SMPC`; a body with `type: "SMPC"` but a TEE input crashes
in the source before any write (`spec.datasets` is undefined), so the
embedding is only consulted for well-matched bodies. -/
def specForPolicy : JobInput → SmpcSpec
  | .smpc spec => spec
  | .tee => { operation := .COUNT, datasets := [] }

/-- The scope condition used by every per-job endpoint: the job's
collaboration is owned by the caller's org, or that org appears among its
participants. -/
def jobInScope (db : Db) (j : Job) (orgId : OrgId) : Bool :=
  db.collaborations.any (fun c =>
    decide (c.id = j.collaborationId) &&
    (decide (c.ownerOrgId = orgId) ||
      db.participants.any (fun p =>
        decide (p.collaborationId = c.id) && decide (p.orgId = orgId))))

/-- `prisma.job.findFirst({where:{id, collaboration: OR[owner, participant]}})`:
the job by id, but only when the caller's org is in scope. -/
def findScopedJob (db : Db) (jobId : JobId) (orgId : OrgId) : Option Job :=
  db.jobs.find? (fun j => decide (j.id = jobId) && jobInScope db j orgId)

/-- `createJob` (`jobs.controller.ts`): policy check, then persist a PENDING
job and append a QUEUED event; on denial return the reason as a 403 error and
touch nothing. -/
def createJob (db : Db) (callerOrgId : OrgId) (body : CreateJobBody) : JobsResponse × Db :=
  match authorizeJobCreation db callerOrgId body.collaborationId body.type
      (specForPolicy body.input) with
  | .deny reason => (.error 403 reason "Job creation not permitted.", db)
  | .ok =>
    let job : Job := {
      id := db.nextJobId, collaborationId := body.collaborationId,
      type := body.type, status := .PENDING,
      input := sanitizeJobInputForStorage body.input }
    let db1 := { db with jobs := db.jobs ++ [job], nextJobId := db.nextJobId + 1 }
    let db2 := appendJobEvent db1 { jobId := job.id, type := .QUEUED, data := .createdReason }
    (.created job, db2)

/-! ### Artifact store (`src/lib/artifacts.ts`) -/

/-- Artifact configuration (`env.artifact`): the store root (an absolute
directory) and the optional public base URL. -/
structure ArtifactEnv where
  root : Str
  publicBase : Option Str
  deriving DecidableEq

/-- Splits a path into '/'-separated segments (with accumulator). -/
def splitSegAux : Str → Str → List Str
  | [], acc => [acc.reverse]
  | c :: rest, acc =>
    if c = '/' then acc.reverse :: splitSegAux rest [] else splitSegAux rest (c :: acc)

/-- The '/'-separated segments of a path. -/
def pathSegments (s : Str) : List Str := splitSegAux s []

/-- One step of POSIX path normalization: empty and `.` segments are dropped,
`..` pops the previous segment (clamped at the root for absolute paths). -/
def normStep (acc : List Str) (seg : Str) : List Str :=
  if seg = [] || seg = ['.'] then acc
  else if seg = ['.', '.'] then acc.dropLast
  else acc ++ [seg]

/-- Normalized segment list of a joined path. -/
def normSegments (segs : List Str) : List Str := segs.foldl normStep []

/-- Node's `path.isAbsolute` on POSIX: the path starts with '/'. -/
def isAbsolute (s : Str) : Bool :=
  match s with
  | '/' :: _ => true
  | _ => false

/-- Joins path segments with '/' separators. -/
def joinSegs : List Str → Str
  | [] => []
  | [s] => s
  | s :: s2 :: rest => s ++ '/' :: joinSegs (s2 :: rest)

/-- Node's `path.join(...parts)`: concatenate with '/' separators and
normalize.  Modelled for the absolute store roots the source resolves in its
environment config (`path.resolve(process.cwd(), ARTIFACT_ROOT)`): `..`
segments pop, clamped at the root. -/
def pathJoin (parts : List Str) : Str :=
  let segs := normSegments (parts.map pathSegments).flatten
  let body := joinSegs segs
  match parts with
  | p :: _ => if isAbsolute p then '/' :: body else body
  | [] => body

/-- `ensureArtifactDir`: the per-job directory `path.join(env.artifact.root,
jobId)` (its idempotent creation on disk is I/O with no observable effect on
the returned path). -/
def ensureArtifactDir (env : ArtifactEnv) (jobId : Str) : Str :=
  pathJoin [env.root, jobId]

/-- `buildArtifactUri`: with a public base, the template
`base/jobId/filename`; otherwise `file://` followed by
`path.join(root, jobId, filename)`. -/
def buildArtifactUri (env : ArtifactEnv) (jobId filename : Str) : Str :=
  match env.publicBase with
  | some base => base ++ ['/'] ++ jobId ++ ['/'] ++ filename
  | none => "file://".toList ++ pathJoin [env.root, jobId, filename]

/-- The filesystem path `writeJsonArtifact` writes to:
`path.join(ensureArtifactDir(jobId), filename)`.  The filename is joined as
given — the write path performs no traversal validation. -/
def writeJsonArtifactPath (env : ArtifactEnv) (jobId filename : Str) : Str :=
  pathJoin [ensureArtifactDir env jobId, filename]

/-- `writeJsonArtifact`'s return value: the artifact URI.  The JSON write
itself is I/O; even when it fails, `runSMPC` falls back to
`buildArtifactUri(jobId, filename)`, the same value. -/
def writeJsonArtifact (env : ArtifactEnv) (jobId filename : Str) : Str :=
  buildArtifactUri env jobId filename

/-- `getArtifactPath`: `path.join(env.artifact.root, jobId, filename)`. -/
def getArtifactPath (env : ArtifactEnv) (jobId filename : Str) : Str :=
  pathJoin [env.root, jobId, filename]

/-- `getDefaultArtifactFilename`: the constant `result.json`. -/
def getDefaultArtifactFilename : Str := "result.json".toList

/-- The text after the first occurrence of `pat` in `s`, scanning left to
right (`none` when `pat` does not occur). -/
def afterFirstOcc (pat : Str) : Str → Option Str
  | [] => if pat.isPrefixOf ([] : Str) then some [] else none
  | c :: rest =>
    if pat.isPrefixOf (c :: rest) then some ((c :: rest).drop pat.length)
    else afterFirstOcc pat rest

/-- JS `String.prototype.includes` / substring occurrence test. -/
def containsSubstr (pat s : Str) : Bool := (afterFirstOcc pat s).isSome

/-- The text after the last '/' of `s` (`none` when `s` has no '/'). -/
def afterLastSlash (s : Str) : Option Str :=
  if s.contains '/' then some (s.reverse.takeWhile (fun c => !decide (c = '/'))).reverse
  else none

/-- The first extraction pattern of `extractFilenameFromUri`, the regex
`file:` `//` `.*` `/` `([^/]+)$`: the string must contain `file://` followed
somewhere later by a '/', and the capture is the nonempty slash-free tail
after the string's last '/'.  Since the capture is anchored at the end and
excludes '/', a match exists exactly when the text after the first `file://`
still contains a '/' and the final segment is nonempty, and the capture is
that final segment. -/
def fileUriMatch (s : Str) : Option Str :=
  match afterFirstOcc "file://".toList s with
  | none => none
  | some t =>
    match afterLastSlash t with
    | none => none
    | some c => if c.isEmpty then none else some c

/-- The second extraction pattern, the regex
`/artifacts/` `[^/]+` `/` `([^/?]+)` `(?:\?|$)`: scanning left to right, an
occurrence of `/artifacts/` must be followed by a nonempty slash-free segment,
a '/', and a nonempty capture free of '/' and '?' ending at a '?' or at the
end of the string.  The greedy inner segment admits no backtracking (every
shorter split puts a non-'/' where the literal '/' must be), so each scan
position either matches as below or fails. -/
def artifactsUrlMatch : Str → Option Str
  | [] => none
  | c :: rest =>
    (if ("/artifacts/".toList).isPrefixOf (c :: rest) then
      let body := (c :: rest).drop 11
      let seg1 := body.takeWhile (fun ch => !decide (ch = '/'))
      if seg1.isEmpty then none
      else
        match body.drop seg1.length with
        | '/' :: tail =>
          let run := tail.takeWhile (fun ch => !decide (ch = '/') && !decide (ch = '?'))
          if !run.isEmpty &&
              (decide (tail.drop run.length = []) ||
                decide ((tail.drop run.length).head? = some '?')) then
            some run
          else none
        | _ => none
    else none).orElse (fun _ => artifactsUrlMatch rest)

/-- The third extraction pattern, the regex `/` `([^/?]+)` `(?:\?|$)`:
scanning left to right, a '/' followed by a nonempty run free of '/' and '?'
that ends at a '?' or at the end of the string. -/
def lastSegmentMatch : Str → Option Str
  | [] => none
  | c :: rest =>
    (if decide (c = '/') then
      let run := rest.takeWhile (fun ch => !decide (ch = '/') && !decide (ch = '?'))
      if !run.isEmpty &&
          (decide (rest.drop run.length = []) ||
            decide ((rest.drop run.length).head? = some '?')) then
        some run
      else none
    else none).orElse (fun _ => lastSegmentMatch rest)

/-- `extractFilenameFromUri`: `null` in, `null` out; otherwise the three
regex patterns are tried in order and the first capture wins. -/
def extractFilenameFromUri (artifactUri : Option Str) : Option Str :=
  match artifactUri with
  | none => none
  | some uri =>
    match fileUriMatch uri with
    | some m => some m
    | none =>
      match artifactsUrlMatch uri with
      | some m => some m
      | none => lastSegmentMatch uri

/-! ### SMPC adapter stub (`src/pet/smpc.ts`) -/

/-- `assertValidSmpcRunInput`, as the first raised error message (or `none`).
The operation-enum, non-empty-datasetId, `groupBy` and `filters` array checks
are vacuously satisfied by the typed embedding; the dataset list and
per-dataset field checks remain. -/
def assertValidSmpcRunInput (input : SmpcSpec) : Option String :=
  if input.datasets.isEmpty then some "SMPC spec must include at least one dataset"
  else if input.datasets.any (fun ds => ds.fields.isEmpty) then
    some "Dataset must have at least one field"
  else none

/-- `runSMPC`'s return value `{artifactUri, result}`. -/
structure SmpcRunResult where
  artifactUri : Option Str
  result : SmpcResult
  deriving DecidableEq

/-- The decimal rendering of an abstract job id, standing in for the UUID
string the controllers pass to the artifact layer. -/
def jobIdStr (n : JobId) : Str := Nat.toDigits 10 n

/-- `runSMPC`: validate the spec (any failure is a thrown error, modelled as
`Except.error`), produce the stub result for the operation, and, when a job id
is supplied, write the artifact and return its URI (on a write failure the
source falls back to `buildArtifactUri`, which is the same value). -/
def runSMPC (env : ArtifactEnv) (spec : SmpcSpec) (jobId : Option Str) :
    Except String SmpcRunResult :=
  match assertValidSmpcRunInput spec with
  | some msg => .error msg
  | none =>
    let result := match spec.operation with
      | .COUNT => SmpcResult.total 1337
      | .SUM => SmpcResult.sum 424242
      | .AVG => SmpcResult.avg
    let filename := "result.json".toList
    let artifactUri : Option Str :=
      match jobId with
      | some jid => some (writeJsonArtifact env jid filename)
      | none => none
    .ok { artifactUri, result }

/-! ### Remaining lifecycle controller operations (`jobs.controller.ts`) -/

/-- The adapter-success update in `startJob`:
`prisma.job.update({where:{id}, data:{status:SUCCEEDED, artifactUri, result}})`.
The `where` clause has only the id — the status is overwritten whatever its
current value. -/
def completeJobUpdate (db : Db) (jobId : JobId) (artifactUri : Option Str)
    (result : SmpcResult) : Db :=
  { db with jobs := db.jobs.map (fun j =>
      if decide (j.id = jobId) then
        { j with status := .SUCCEEDED, artifactUri := artifactUri, result := some result }
      else j) }

/-- The adapter-failure update in `startJob`:
`prisma.job.update({where:{id}, data:{status:FAILED}})` — again keyed only by
id. -/
def failJobUpdate (db : Db) (jobId : JobId) : Db :=
  { db with jobs := db.jobs.map (fun j =>
      if decide (j.id = jobId) then { j with status := .FAILED } else j) }

/-- `startJob`: scope check (404), PENDING check (409), compare-and-set to
RUNNING, then the synchronous SMPC adapter with its success/failure
bookkeeping; non-SMPC types get a PROGRESS note and stay RUNNING.  A failing
compare-and-set would propagate as a thrown error to the express error
handler (a 500, unreachable for well-formed stores in this sequential
model). -/
def startJob (env : ArtifactEnv) (db : Db) (jobId : JobId) (callerOrgId : OrgId) :
    JobsResponse × Db :=
  match findScopedJob db jobId callerOrgId with
  | none => (.error 404 "JOB_NOT_FOUND" "Not found or not permitted.", db)
  | some job =>
    if !decide (job.status = .PENDING) then
      (.error 409 "INVALID_STATE" "Job is not PENDING.", db)
    else
      match transitionJobStatus db jobId .PENDING .RUNNING .STARTED with
      | .error msg => (.error 500 "INTERNAL_ERROR" msg, db)
      | .ok db1 =>
        if decide (job.type = .SMPC) then
          match job.input with
          | .smpc spec =>
            match runSMPC env spec (some (jobIdStr jobId)) with
            | .ok r =>
              let db2 := completeJobUpdate db1 jobId r.artifactUri r.result
              (.okTrue, appendJobEvent db2 {
                jobId, type := .COMPLETED,
                oldStatus := some .RUNNING, newStatus := some .SUCCEEDED,
                data := .artifact r.artifactUri })
            | .error msg =>
              let db2 := failJobUpdate db1 jobId
              (.okTrue, appendJobEvent db2 {
                jobId, type := .FAILED,
                oldStatus := some .RUNNING, newStatus := some .FAILED,
                data := .errorMessage msg })
          | .tee =>
            -- a job stored with `type: SMPC` but a TEE input: the cast spec
            -- fails `assertValidSmpcRunInput` in the source, taking the
            -- FAILED path
            let db2 := failJobUpdate db1 jobId
            (.okTrue, appendJobEvent db2 {
              jobId, type := .FAILED,
              oldStatus := some .RUNNING, newStatus := some .FAILED,
              data := .errorMessage "SMPC job failed with an unknown error" })
        else
          (.okTrue, appendJobEvent db1 {
            jobId, type := .PROGRESS,
            data := .note "TEE stub not implemented" })

/-- `getJobById`: scope check, then the job with its event history ordered
ascending by creation time (the append order of `events`). -/
def getJobById (db : Db) (jobId : JobId) (callerOrgId : OrgId) : JobsResponse :=
  match findScopedJob db jobId callerOrgId with
  | none => .error 404 "JOB_NOT_FOUND" "Not found or not permitted."
  | some job => .jobDetail job (db.events.filter (fun e => decide (e.jobId = jobId)))

/-- Webhook event types accepted by `jobWebhookBodySchema`. -/
inductive WebhookEventType
  | PROGRESS | COMPLETED | FAILED
  deriving DecidableEq

/-- The webhook body's `event` field. -/
structure WebhookEvent where
  type : WebhookEventType
  data : Option String := none
  deriving DecidableEq

/-- `jobWebhook` (`POST /v1/webhooks/jobs`): look the job up by id alone (404
when unknown); PROGRESS appends a diagnostic event; COMPLETED/FAILED perform
`prisma.job.update({where:{id}})` — an unconditional status overwrite — and
append an event carrying the pre-call status as `oldStatus`. -/
def jobWebhook (db : Db) (jobId : JobId) (event : WebhookEvent) : JobsResponse × Db :=
  match db.jobs.find? (fun j => decide (j.id = jobId)) with
  | none => (.error 404 "JOB_NOT_FOUND" "Unknown job.", db)
  | some job =>
    match event.type with
    | .PROGRESS =>
      (.okTrue, appendJobEvent db { jobId, type := .PROGRESS, data := .webhook event.data })
    | .COMPLETED =>
      let db1 := { db with jobs := db.jobs.map (fun j =>
        if decide (j.id = jobId) then { j with status := .SUCCEEDED } else j) }
      (.okTrue, appendJobEvent db1 {
        jobId, type := .COMPLETED,
        oldStatus := some job.status, newStatus := some .SUCCEEDED,
        data := .webhook event.data })
    | .FAILED =>
      let db1 := { db with jobs := db.jobs.map (fun j =>
        if decide (j.id = jobId) then { j with status := .FAILED } else j) }
      (.okTrue, appendJobEvent db1 {
        jobId, type := .FAILED,
        oldStatus := some job.status, newStatus := some .FAILED,
        data := .webhook event.data })

/-- The `$transaction` inside `cancelJob`: `updateMany` over rows matching the
id with status PENDING or RUNNING; a row count other than one throws
`INVALID_TRANSITION` (rolling back, so the store is untouched), otherwise the
row is set to CANCELED and a STATUS_CHANGE event is created in the same unit
of work. -/
def cancelJobTransaction (db : Db) (jobId : JobId) (oldStatus : JobStatus)
    (reason : Option String) : Except String Db :=
  let matched := db.jobs.filter (fun j =>
    decide (j.id = jobId) && (decide (j.status = .PENDING) || decide (j.status = .RUNNING)))
  if !decide (matched.length = 1) then
    .error "INVALID_TRANSITION"
  else
    let db1 := { db with jobs := db.jobs.map (fun j =>
      if decide (j.id = jobId) && (decide (j.status = .PENDING) || decide (j.status = .RUNNING))
      then { j with status := .CANCELED } else j) }
    .ok (appendJobEvent db1 {
      jobId, type := .STATUS_CHANGE,
      oldStatus := some oldStatus, newStatus := some .CANCELED,
      data := .cancelReason reason })

/-- `cancelJob`: scope check (404), terminal-status check (409, the source
message interpolates the current status), then the compare-and-set
transaction; its `INVALID_TRANSITION` throw is mapped to a 409
`INVALID_STATE`. -/
def cancelJob (db : Db) (jobId : JobId) (orgId : OrgId) (reason : Option String) :
    JobsResponse × Db :=
  match findScopedJob db jobId orgId with
  | none => (.error 404 "JOB_NOT_FOUND" "Not found or not permitted.", db)
  | some job =>
    if decide (job.status = .SUCCEEDED) || decide (job.status = .FAILED) ||
        decide (job.status = .CANCELED) then
      (.error 409 "INVALID_STATE" "Job already terminal.", db)
    else
      match cancelJobTransaction db jobId job.status reason with
      | .error _ => (.error 409 "INVALID_STATE" "Job state changed concurrently.", db)
      | .ok db1 => (.okTrue, db1)

/-! ### Artifact download endpoint (`artifacts.controller.ts`) -/

/-- Responses of `GET /v1/jobs/:id/artifact`. -/
inductive DownloadResponse
  | stream (path : Str) (filename : Str)
  | error (status : Nat) (code : String)
  deriving DecidableEq

/-- The download endpoint's filename derivation: the filename extracted from
the stored URI, or the default `result.json` when extraction yields nothing. -/
def filenameForDownload (artifactUri : Option Str) : Str :=
  match extractFilenameFromUri artifactUri with
  | some f => f
  | none => getDefaultArtifactFilename

/-- `downloadJobArtifact`: scope check, artifact presence, terminal-status
check, filename extraction from the stored URI (default `result.json`), the
traversal check `filename.includes(..) || path.isAbsolute(filename)`, then
on-disk existence (`fileOnDisk` stands for the filesystem probe) and the
streamed path. -/
def downloadJobArtifact (env : ArtifactEnv) (db : Db) (jobId : JobId)
    (callerOrgId : OrgId) (fileOnDisk : Bool) : DownloadResponse :=
  match findScopedJob db jobId callerOrgId with
  | none => .error 404 "JOB_NOT_FOUND"
  | some job =>
    match job.artifactUri with
    | none => .error 404 "ARTIFACT_NOT_FOUND"
    | some uri =>
      if !(decide (job.status = .SUCCEEDED) || decide (job.status = .FAILED)) then
        .error 409 "INVALID_STATE"
      else
        let filename := filenameForDownload (some uri)
        if containsSubstr "..".toList filename || isAbsolute filename then
          .error 400 "INVALID_FILENAME"
        else if !fileOnDisk then
          .error 404 "ARTIFACT_NOT_FOUND"
        else
          .stream (getArtifactPath env (jobIdStr jobId) filename) filename

/-! ### Concrete stores used by the scenario claims -/

/-- Collaboration 10 owned by org 1, participant (org 2, CONSUMER), dataset 20
owned by org 2 with one consent — the §8 scenario fixture. -/
def scenarioDb : Db := {
  collaborations := [⟨10, 1⟩],
  participants := [⟨10, 2, .CONSUMER⟩],
  datasets := [⟨20, 2⟩],
  consents := [⟨20⟩],
  jobs := [], events := [], nextJobId := 100 }

/-- A COUNT spec over dataset 20. -/
def scenarioSpec : SmpcSpec := { operation := .COUNT, datasets := [⟨20, ["age"]⟩] }

/-- The create request of the scenario. -/
def scenarioBody : CreateJobBody :=
  { collaborationId := 10, type := .SMPC, input := .smpc scenarioSpec }

/-- Artifact store rooted at `/srv/artifacts` with no public base. -/
def scenarioEnv : ArtifactEnv := { root := "/srv/artifacts".toList, publicBase := none }

/-- C5: in the scenario store (collaboration owned by org 1 with participant
(2, CONSUMER); dataset 20 owned by org 2 with one consent), `createJob` by
org 1 with an SMPC COUNT spec over dataset 20 returns 201 with the job
PENDING, and `startJob` then leaves the job SUCCEEDED with result
`total = 1337` and a non-null artifact URI. -/
theorem smpc_count_scenario :
    (createJob scenarioDb 1 scenarioBody).1.statusCode = 201 ∧
    (((createJob scenarioDb 1 scenarioBody).2.jobs.find? (fun j => decide (j.id = 100))).map
      Job.status) = some .PENDING ∧
    (startJob scenarioEnv (createJob scenarioDb 1 scenarioBody).2 100 1).1 = .okTrue ∧
    (((startJob scenarioEnv (createJob scenarioDb 1 scenarioBody).2 100 1).2.jobs.find?
        (fun j => decide (j.id = 100))).map
      (fun j => (j.status, j.result, j.artifactUri.isSome)))
      = some (.SUCCEEDED, some (.total 1337), true) := by
  decide

/-- A store holding one job (id 1) already in the terminal status SUCCEEDED. -/
def terminalDb : Db := {
  collaborations := [⟨10, 1⟩], participants := [], datasets := [], consents := [],
  jobs := [{ id := 1, collaborationId := 10, type := .SMPC, status := .SUCCEEDED,
             input := .tee }],
  events := [], nextJobId := 2 }

/-- C1: evaluating `jobWebhook` at the failing input — a FAILED callback for a
job already SUCCEEDED — shows the callback is not a no-op: the job's status is
overwritten from the terminal SUCCEEDED to FAILED and the appended event
records a transition originating from the terminal status. -/
theorem webhook_overwrites_terminal_status :
    (((jobWebhook terminalDb 1 { type := .FAILED }).2.jobs.find?
        (fun j => decide (j.id = 1))).map Job.status) = some .FAILED ∧
    (jobWebhook terminalDb 1 { type := .FAILED }).2.events.getLast?
      = some { jobId := 1, type := .FAILED, oldStatus := some .SUCCEEDED,
               newStatus := some .FAILED, data := .webhook none } := by
  decide

/-- A store holding one job (id 7) in the terminal status CANCELED. -/
def canceledDb : Db := {
  collaborations := [⟨10, 1⟩], participants := [], datasets := [], consents := [],
  jobs := [{ id := 7, collaborationId := 10, type := .SMPC, status := .CANCELED,
             input := .tee }],
  events := [], nextJobId := 8 }

/-- C2 counterexample: the adapter-completion update of `startJob`
(`prisma.job.update` keyed only by id) applied while the job's current status
is CANCELED — the situation a concurrent cancel produces between the
PENDING→RUNNING compare-and-set and the adapter's return — silently
overwrites the status to SUCCEEDED instead of reporting INVALID_TRANSITION
and leaving it unchanged, refuting the claim that every core transition is a
conditional update. -/
theorem adapter_completion_overwrites_canceled :
    ((canceledDb.jobs.find? (fun j => decide (j.id = 7))).map Job.status)
      = some .CANCELED ∧
    (((completeJobUpdate canceledDb 7 none (.total 1337)).jobs.find?
        (fun j => decide (j.id = 7))).map Job.status) = some .SUCCEEDED := by
  decide

/-- C6 counterexample: the artifact store's write path performs no traversal
validation — asked to write filename `../x` for job `j1`, it resolves and
returns a path and URI outside the job's directory `/srv/artifacts/j1`
instead of rejecting the parent-directory segment. -/
theorem write_path_accepts_traversal_filename :
    writeJsonArtifactPath scenarioEnv "j1".toList "../x".toList
      = "/srv/artifacts/x".toList ∧
    writeJsonArtifact scenarioEnv "j1".toList "../x".toList
      = "file:///srv/artifacts/x".toList ∧
    (ensureArtifactDir scenarioEnv "j1".toList).isPrefixOf
      (writeJsonArtifactPath scenarioEnv "j1".toList "../x".toList) = false := by
  decide

/-- Collaboration 10 owned by org 1 with no explicit participant row for the
owner; dataset 20 owned by org 1 (the owner) with one consent. -/
def ownerDatasetDb : Db := {
  collaborations := [⟨10, 1⟩],
  participants := [],
  datasets := [⟨20, 1⟩],
  consents := [⟨20⟩],
  jobs := [], events := [], nextJobId := 0 }

/-- C8 counterexample: an SMPC job submitted by the owner org referencing a
dataset owned by that same owner org is denied with
DATASET_ORG_NOT_PARTICIPANT when the owner has no explicit
CollaborationParticipant row — the implicit owner participation applies only
to the submitting-role check, not to the dataset-owner participation check. -/
theorem owner_dataset_denied_counterexample :
    authorizeJobCreation ownerDatasetDb 1 10 .SMPC
      { operation := .COUNT, datasets := [⟨20, ["f"]⟩] }
      = .deny "DATASET_ORG_NOT_PARTICIPANT" := by
  decide

/-- C2 (amended): the start transition (`transitionJobStatus`) and the cancel
transaction are compare-and-set — whenever no stored row carries the expected
status under the target id, they report `INVALID_TRANSITION` and, returning
`Except.error`, leave the store untouched — while the adapter-completion
updates of `startJob` are unconditional overwrites keyed only by the job id:
after them, every row with that id is SUCCEEDED (resp. FAILED) whatever its
previous status, with no conditional check and no error path. -/
theorem transitions_conditional_except_adapter_completion :
    (∀ (db : Db) (jobId : JobId) (fromStatus toStatus : JobStatus)
        (eventType : JobEventType) (data : EventData),
      (∀ j ∈ db.jobs, j.id = jobId → j.status ≠ fromStatus) →
      transitionJobStatus db jobId fromStatus toStatus eventType data
        = .error "INVALID_TRANSITION") ∧
    (∀ (db : Db) (jobId : JobId) (oldStatus : JobStatus) (reason : Option String),
      (∀ j ∈ db.jobs, j.id = jobId → j.status ≠ .PENDING ∧ j.status ≠ .RUNNING) →
      cancelJobTransaction db jobId oldStatus reason = .error "INVALID_TRANSITION") ∧
    (∀ (db : Db) (jobId : JobId) (uri : Option Str) (res : SmpcResult),
      ∀ j ∈ (completeJobUpdate db jobId uri res).jobs,
        j.id = jobId → j.status = .SUCCEEDED) ∧
    (∀ (db : Db) (jobId : JobId),
      ∀ j ∈ (failJobUpdate db jobId).jobs, j.id = jobId → j.status = .FAILED) := by
  refine ⟨?_, ?_, ?_, ?_⟩
  · intro db jobId fromStatus toStatus eventType data h
    have hnil : db.jobs.filter
        (fun j => decide (j.id = jobId) && decide (j.status = fromStatus)) = [] := by
      rw [List.filter_eq_nil_iff]
      intro j hj
      simp only [Bool.and_eq_true, decide_eq_true_eq, not_and]
      exact h j hj
    simp [transitionJobStatus, hnil]
  · intro db jobId oldStatus reason h
    have hnil : db.jobs.filter (fun j => decide (j.id = jobId) &&
        (decide (j.status = .PENDING) || decide (j.status = .RUNNING))) = [] := by
      rw [List.filter_eq_nil_iff]
      intro j hj
      simp only [Bool.and_eq_true, Bool.or_eq_true, decide_eq_true_eq, not_and, not_or]
      exact h j hj
    simp [cancelJobTransaction, hnil]
  · intro db jobId uri res j hj hid
    simp only [completeJobUpdate, List.mem_map] at hj
    obtain ⟨j0, hj0, rfl⟩ := hj
    by_cases h0 : j0.id = jobId
    · simp [h0]
    · simp only [h0, decide_False, if_false] at hid ⊢
      exact absurd hid h0
  · intro db jobId j hj hid
    simp only [failJobUpdate, List.mem_map] at hj
    obtain ⟨j0, hj0, rfl⟩ := hj
    by_cases h0 : j0.id = jobId
    · simp [h0]
    · simp only [h0, decide_False, if_false] at hid ⊢
      exact absurd hid h0

/-- Witness for the amended C2 theorem at concrete inputs: a store whose only
job (id 7) is CANCELED makes the start compare-and-set report
`INVALID_TRANSITION`. -/
theorem transitions_conditional_witness :
    transitionJobStatus canceledDb 7 .RUNNING .SUCCEEDED .COMPLETED .empty
      = .error "INVALID_TRANSITION" :=
  transitions_conditional_except_adapter_completion.1 canceledDb 7 .RUNNING .SUCCEEDED
    .COMPLETED .empty (by decide)

/-- C9: under the hypothesis that no stored job both carries the requested id
and is in the caller's scope — which holds both when the job id is absent from
the store and when the job exists but the caller's org is neither owner nor
participant of its collaboration — `getJobById`, `startJob` and `cancelJob`
all return the byte-identical error: HTTP 404, code `JOB_NOT_FOUND`, message
`Not found or not permitted.`, leaving the store unchanged, so a caller cannot
distinguish a missing job from an out-of-scope one. -/
theorem job_not_found_indistinguishable (env : ArtifactEnv) (db : Db) (jobId : JobId)
    (callerOrgId : OrgId) (reason : Option String)
    (h : ∀ j ∈ db.jobs, j.id = jobId → jobInScope db j callerOrgId = false) :
    getJobById db jobId callerOrgId
      = .error 404 "JOB_NOT_FOUND" "Not found or not permitted." ∧
    startJob env db jobId callerOrgId
      = (.error 404 "JOB_NOT_FOUND" "Not found or not permitted.", db) ∧
    cancelJob db jobId callerOrgId reason
      = (.error 404 "JOB_NOT_FOUND" "Not found or not permitted.", db) := by
  have hfind : findScopedJob db jobId callerOrgId = none := by
    unfold findScopedJob
    rw [List.find?_eq_none]
    intro j hj
    simp only [Bool.and_eq_true, decide_eq_true_eq, not_and]
    intro hid hscope
    rw [h j hj hid] at hscope
    exact Bool.false_ne_true hscope
  exact ⟨by simp [getJobById, hfind], by simp [startJob, hfind], by simp [cancelJob, hfind]⟩

/-- Witness for C9 at concrete inputs: job id 42 does not exist in the
scenario store, and all three endpoints answer with the same 404. -/
theorem job_not_found_witness :
    getJobById scenarioDb 42 1
      = .error 404 "JOB_NOT_FOUND" "Not found or not permitted." ∧
    startJob scenarioEnv scenarioDb 42 1
      = (.error 404 "JOB_NOT_FOUND" "Not found or not permitted.", scenarioDb) ∧
    cancelJob scenarioDb 42 1 none
      = (.error 404 "JOB_NOT_FOUND" "Not found or not permitted.", scenarioDb) :=
  job_not_found_indistinguishable scenarioEnv scenarioDb 42 1 none (by decide)

/-! ### Counting lemmas for the policy's set-cardinality checks -/

/-- Distinct-count form of coverage: the distinct elements of `C` that lie in
`I` number exactly `I.length` (for `I` without duplicates) precisely when
every element of `I` occurs in `C`. -/
theorem dedup_filter_length_eq_iff {α : Type} [DecidableEq α] (C I : List α) (hI : I.Nodup) :
    ((C.filter (fun c => I.contains c)).dedup).length = I.length ↔ ∀ i ∈ I, i ∈ C := by
  have h1 : ((C.filter (fun c => I.contains c)).dedup).length
      = ((C.filter (fun c => I.contains c)).toFinset).card := (List.card_toFinset _).symm
  have h2 : (C.filter (fun c => I.contains c)).toFinset = C.toFinset ∩ I.toFinset := by
    ext a
    simp [List.mem_filter]
  have h3 : I.toFinset.card = I.length := by
    rw [List.card_toFinset, hI.dedup]
  rw [h1, h2]
  constructor
  · intro h i hi
    have hit : C.toFinset ∩ I.toFinset = I.toFinset :=
      Finset.eq_of_subset_of_card_le Finset.inter_subset_right (by rw [h, h3])
    have hsub : I.toFinset ⊆ C.toFinset := Finset.inter_eq_right.mp hit
    exact List.mem_toFinset.mp (hsub (List.mem_toFinset.mpr hi))
  · intro h
    have hsub : I.toFinset ⊆ C.toFinset := fun a ha =>
      List.mem_toFinset.mpr (h a (List.mem_toFinset.mp ha))
    rw [Finset.inter_eq_right.mpr hsub, h3]

/-- The distinct elements of `C` lying in `I` are at most the distinct
elements of `I`. -/
theorem dedup_filter_length_le {α : Type} [DecidableEq α] (C I : List α) :
    ((C.filter (fun c => I.contains c)).dedup).length ≤ I.dedup.length := by
  have h1 : ((C.filter (fun c => I.contains c)).dedup).length
      = ((C.filter (fun c => I.contains c)).toFinset).card := (List.card_toFinset _).symm
  have h2 : (C.filter (fun c => I.contains c)).toFinset = C.toFinset ∩ I.toFinset := by
    ext a
    simp [List.mem_filter]
  rw [h1, h2]
  calc (C.toFinset ∩ I.toFinset).card ≤ I.toFinset.card :=
        Finset.card_le_card Finset.inter_subset_right
    _ = I.dedup.length := List.card_toFinset I

/-- A list with duplicates strictly shrinks under `dedup`. -/
theorem dedup_length_lt_of_not_nodup {α : Type} [DecidableEq α] (l : List α)
    (h : ¬ l.Nodup) : l.dedup.length < l.length := by
  rcases Nat.lt_or_ge l.dedup.length l.length with h1 | h1
  · exact h1
  · exact absurd (List.dedup_eq_self.mp ((List.dedup_sublist l).eq_of_length
      (Nat.le_antisymm (List.Sublist.length_le (List.dedup_sublist l)) h1))) h

/-- Row-count form of coverage for a duplicate-free table `A`. -/
theorem nodup_filter_length_eq_iff {α : Type} [DecidableEq α] (A I : List α)
    (hA : A.Nodup) (hI : I.Nodup) :
    (A.filter (fun a => I.contains a)).length = I.length ↔ ∀ i ∈ I, i ∈ A := by
  rw [← (hA.filter (fun a => I.contains a)).dedup]
  exact dedup_filter_length_eq_iff A I hI

/-! ### The policy contract as the specification words it (§4.1)

The following definitions restate the admission checks in the specification's
vocabulary — existential membership and universally quantified per-dataset
conditions instead of the source's row-count comparisons — to serve as the
refinement target for `authorizeJobCreation`. -/

/-- Spec §4.1 check 1: the collaboration exists and the caller org is its
owner or one of its participants. -/
def collabMemberOk (db : Db) (collaborationId : CollabId) (callerOrgId : OrgId) : Bool :=
  db.collaborations.any (fun c =>
    decide (c.id = collaborationId) &&
    (decide (c.ownerOrgId = callerOrgId) ||
      db.participants.any (fun p =>
        decide (p.collaborationId = collaborationId) && decide (p.orgId = callerOrgId))))

/-- An org holds a participant record of the collaboration. -/
def isParticipant (db : Db) (collaborationId : CollabId) (orgId : OrgId) : Bool :=
  db.participants.any (fun p =>
    decide (p.collaborationId = collaborationId) && decide (p.orgId = orgId))

/-- An org owns the collaboration. -/
def isCollabOwner (db : Db) (collaborationId : CollabId) (orgId : OrgId) : Bool :=
  db.collaborations.any (fun c =>
    decide (c.id = collaborationId) && decide (c.ownerOrgId = orgId))

/-- Spec §4.1 check 2: the caller has a submitting role — a participant role
of its own, or the owner's implicit full participation.  Every role
(PROVIDER/CONSUMER/BOTH) is recognized for the SMPC type under the current
policy, so `ROLE_FORBIDDEN` is unreachable and only participation matters. -/
def hasSubmittingRole (db : Db) (collaborationId : CollabId) (orgId : OrgId) : Bool :=
  isParticipant db collaborationId orgId || isCollabOwner db collaborationId orgId

/-- Spec §4.1 check 3a: every referenced dataset id exists. -/
def allDatasetsExist (db : Db) (spec : SmpcSpec) : Bool :=
  spec.datasets.all (fun ref => db.datasets.any (fun d => decide (d.id = ref.datasetId)))

/-- Spec §4.1 check 3b: every referenced dataset's owning organization is a
participant of the same collaboration. -/
def allDatasetOrgsParticipate (db : Db) (collaborationId : CollabId) (spec : SmpcSpec) : Bool :=
  spec.datasets.all (fun ref => db.datasets.all (fun d =>
    !decide (d.id = ref.datasetId) || isParticipant db collaborationId d.orgId))

/-- Spec §4.1 check 3c: every referenced dataset has at least one consent
record. -/
def allDatasetsHaveConsent (db : Db) (spec : SmpcSpec) : Bool :=
  spec.datasets.all (fun ref => db.consents.any (fun c => decide (c.datasetId = ref.datasetId)))

/-- The §4.1 contract: the checks in order, short-circuiting on the first
failure, with the stated denial reasons. -/
def authorizeJobCreationSpec (db : Db) (callerOrgId : OrgId) (collaborationId : CollabId)
    (type : JobType) (spec : SmpcSpec) : AuthzResult :=
  if !collabMemberOk db collaborationId callerOrgId then
    .deny "COLLAB_NOT_FOUND_OR_FORBIDDEN"
  else if !hasSubmittingRole db collaborationId callerOrgId then
    .deny "NOT_A_PARTICIPANT"
  else if type = .SMPC && !allDatasetsExist db spec then
    .deny "DATASET_NOT_FOUND"
  else if type = .SMPC && !allDatasetOrgsParticipate db collaborationId spec then
    .deny "DATASET_ORG_NOT_PARTICIPANT"
  else if type = .SMPC && !allDatasetsHaveConsent db spec then
    .deny "MISSING_CONSENT"
  else .ok

/-! ### Equivalence of the row-count checks with the specification contract -/

theorem exist_check_iff (db : Db) (spec : SmpcSpec)
    (hD : (db.datasets.map Dataset.id).Nodup)
    (hS : (spec.datasets.map DatasetRef.datasetId).Nodup) :
    (db.datasets.filter (fun d =>
        (spec.datasets.map (·.datasetId)).contains d.id)).length
      = (spec.datasets.map (·.datasetId)).length
    ↔ allDatasetsExist db spec = true := by
  have hcomm : (db.datasets.map Dataset.id).filter (fun i =>
        (spec.datasets.map (·.datasetId)).contains i)
      = (db.datasets.filter (fun d =>
        (spec.datasets.map (·.datasetId)).contains d.id)).map Dataset.id := by
    rw [List.filter_map]
    rfl
  have hlen : (db.datasets.filter (fun d =>
        (spec.datasets.map (·.datasetId)).contains d.id)).length
      = ((db.datasets.map Dataset.id).filter (fun i =>
        (spec.datasets.map (·.datasetId)).contains i)).length := by
    rw [hcomm, List.length_map]
  rw [hlen, nodup_filter_length_eq_iff _ _ hD hS]
  simp only [allDatasetsExist, List.all_eq_true, List.any_eq_true, List.mem_map,
    decide_eq_true_eq]
  constructor
  · intro h ref href
    obtain ⟨d, hd, hid⟩ := h ref.datasetId ⟨ref, href, rfl⟩
    exact ⟨d, hd, hid⟩
  · rintro h i ⟨ref, href, rfl⟩
    obtain ⟨d, hd, hid⟩ := h ref href
    exact ⟨d, hd, hid⟩

theorem consent_check_iff (db : Db) (spec : SmpcSpec)
    (hS : (spec.datasets.map DatasetRef.datasetId).Nodup) :
    (jsSet ((db.consents.filter (fun c =>
        (spec.datasets.map (·.datasetId)).contains c.datasetId)).map (·.datasetId))).length
      = (spec.datasets.map (·.datasetId)).length
    ↔ allDatasetsHaveConsent db spec = true := by
  have hcomm : (db.consents.filter (fun c =>
        (spec.datasets.map (·.datasetId)).contains c.datasetId)).map Consent.datasetId
      = (db.consents.map Consent.datasetId).filter (fun i =>
        (spec.datasets.map (·.datasetId)).contains i) := by
    rw [List.filter_map]
    rfl
  show ((db.consents.filter _).map Consent.datasetId).dedup.length = _ ↔ _
  rw [hcomm, dedup_filter_length_eq_iff _ _ hS]
  simp only [allDatasetsHaveConsent, List.all_eq_true, List.any_eq_true, List.mem_map,
    decide_eq_true_eq]
  constructor
  · intro h ref href
    obtain ⟨c, hc, hid⟩ := h ref.datasetId ⟨ref, href, rfl⟩
    exact ⟨c, hc, hid⟩
  · rintro h i ⟨ref, href, rfl⟩
    obtain ⟨c, hc, hid⟩ := h ref href
    exact ⟨c, hc, hid⟩

theorem member_cover_iff (parts : List CollaborationParticipant) (cid : CollabId)
    (O : List OrgId) (hO : O.Nodup) :
    (jsSet ((parts.filter (fun p =>
        decide (p.collaborationId = cid) && O.contains p.orgId)).map (·.orgId))).length
      = O.length
    ↔ ∀ o ∈ O, ∃ p ∈ parts, p.collaborationId = cid ∧ p.orgId = o := by
  have h1 : parts.filter (fun p => decide (p.collaborationId = cid) && O.contains p.orgId)
      = (parts.filter (fun p => decide (p.collaborationId = cid))).filter
          (fun p => O.contains p.orgId) := by
    rw [List.filter_filter]
    apply List.filter_congr
    intro p _
    rw [Bool.and_comm]
  have h2 : ((parts.filter (fun p => decide (p.collaborationId = cid))).filter
        (fun p => O.contains p.orgId)).map CollaborationParticipant.orgId
      = ((parts.filter (fun p => decide (p.collaborationId = cid))).map
          CollaborationParticipant.orgId).filter (fun o => O.contains o) := by
    rw [List.filter_map]
    rfl
  show ((parts.filter _).map CollaborationParticipant.orgId).dedup.length = _ ↔ _
  rw [h1, h2, dedup_filter_length_eq_iff _ _ hO]
  simp only [List.mem_map, List.mem_filter, decide_eq_true_eq]
  constructor
  · intro h o ho
    obtain ⟨p, ⟨hp, hpc⟩, hpo⟩ := h o ho
    exact ⟨p, hp, hpc, hpo⟩
  · intro h o ho
    obtain ⟨p, hp, hpc, hpo⟩ := h o ho
    exact ⟨p, ⟨hp, hpc⟩, hpo⟩

theorem jsSet_nodup {α : Type} [DecidableEq α] (l : List α) : (jsSet l).Nodup :=
  List.nodup_dedup l

theorem org_check_iff (db : Db) (cid : CollabId) (spec : SmpcSpec) :
    (jsSet ((db.participants.filter (fun p =>
        decide (p.collaborationId = cid) &&
          (jsSet ((db.datasets.filter (fun d =>
            (spec.datasets.map (·.datasetId)).contains d.id)).map (·.orgId))).contains
            p.orgId)).map (·.orgId))).length
      = (jsSet ((db.datasets.filter (fun d =>
          (spec.datasets.map (·.datasetId)).contains d.id)).map (·.orgId))).length
    ↔ allDatasetOrgsParticipate db cid spec = true := by
  have hcont : ∀ (x : Nat) (l : List Nat), (l.contains x = true) ↔ x ∈ l := fun x l => by simp
  rw [member_cover_iff _ _ _ (jsSet_nodup _)]
  simp only [allDatasetOrgsParticipate, isParticipant, List.all_eq_true, List.any_eq_true,
    Bool.or_eq_true, Bool.and_eq_true, Bool.not_eq_true', decide_eq_false_iff_not,
    decide_eq_true_eq, jsSet, List.mem_dedup, List.mem_map, List.mem_filter, hcont]
  constructor
  · intro h ref href d hd
    by_cases hid : d.id = ref.datasetId
    · exact Or.inr (h d.orgId ⟨d, ⟨hd, ⟨ref, href, hid.symm⟩⟩, rfl⟩)
    · exact Or.inl hid
  · rintro h o ⟨d, ⟨hd, ⟨ref, href, hrid⟩⟩, rfl⟩
    rcases h ref href d hd with hne | hex
    · exact absurd hrid.symm hne
    · exact hex

theorem authorize_eq_spec (db : Db) (callerOrgId : OrgId) (collaborationId : CollabId)
    (type : JobType) (spec : SmpcSpec)
    (hC : (db.collaborations.map Collaboration.id).Nodup)
    (hD : (db.datasets.map Dataset.id).Nodup)
    (hS : (spec.datasets.map DatasetRef.datasetId).Nodup) :
    authorizeJobCreation db callerOrgId collaborationId type spec
      = authorizeJobCreationSpec db callerOrgId collaborationId type spec := by
  unfold authorizeJobCreation
  cases hfind : db.collaborations.find? (fun c =>
      decide (c.id = collaborationId) &&
      (decide (c.ownerOrgId = callerOrgId) ||
        db.participants.any (fun p =>
          decide (p.collaborationId = collaborationId) && decide (p.orgId = callerOrgId)))) with
  | none =>
    have hcm : collabMemberOk db collaborationId callerOrgId = false := by
      unfold collabMemberOk
      rw [List.any_eq_false]
      exact List.find?_eq_none.mp hfind
    simp [authorizeJobCreationSpec, hcm]
  | some collab =>
    have hpredc := List.find?_some hfind
    have hmemc := List.mem_of_find?_eq_some hfind
    have hcm : collabMemberOk db collaborationId callerOrgId = true :=
      List.any_eq_true.mpr ⟨collab, hmemc, hpredc⟩
    have hcid : collab.id = collaborationId := by
      rw [Bool.and_eq_true] at hpredc
      exact of_decide_eq_true hpredc.1
    cases hpart : db.participants.find? (fun p =>
        decide (p.collaborationId = collaborationId) && decide (p.orgId = callerOrgId)) with
    | some prow =>
      have hpp := List.find?_some hpart
      have hip : isParticipant db collaborationId callerOrgId = true :=
        List.any_eq_true.mpr ⟨prow, List.mem_of_find?_eq_some hpart, hpp⟩
      have hrole : hasSubmittingRole db collaborationId callerOrgId = true := by
        unfold hasSubmittingRole
        rw [hip, Bool.true_or]
      have hany : ([ParticipantRole.PROVIDER, ParticipantRole.CONSUMER,
          ParticipantRole.BOTH].any fun x => decide (x = prow.role)) = true := by
        cases prow.role <;> rfl
      have hex := exist_check_iff db spec hD hS
      have horg := org_check_iff db collaborationId spec
      have hcons := consent_check_iff db spec hS
      cases type with
      | TEE => simp [authorizeJobCreationSpec, hcm, hrole]
      | SMPC =>
        by_cases he : allDatasetsExist db spec = true
        · by_cases ho : allDatasetOrgsParticipate db collaborationId spec = true
          · by_cases hc3 : allDatasetsHaveConsent db spec = true
            · simp only [decide_eq_true (hex.mpr he), decide_eq_true (horg.mpr ho),
                decide_eq_true (hcons.mpr hc3), hany]
              simp [authorizeJobCreationSpec, hcm, hrole, he, ho, hc3]
            · simp only [decide_eq_true (hex.mpr he), decide_eq_true (horg.mpr ho),
                decide_eq_false (fun hh => hc3 (hcons.mp hh)), hany]
              simp [authorizeJobCreationSpec, hcm, hrole, he, ho, Bool.eq_false_iff.mpr hc3]
          · simp only [decide_eq_true (hex.mpr he),
              decide_eq_false (fun hh => ho (horg.mp hh)), hany]
            simp [authorizeJobCreationSpec, hcm, hrole, he, Bool.eq_false_iff.mpr ho]
        · simp only [decide_eq_false (fun hh => he (hex.mp hh)), hany]
          simp [authorizeJobCreationSpec, hcm, hrole, Bool.eq_false_iff.mpr he]
    | none =>
      have hnp : isParticipant db collaborationId callerOrgId = false := by
        unfold isParticipant
        rw [List.any_eq_false]
        exact List.find?_eq_none.mp hpart
      by_cases how : collab.ownerOrgId = callerOrgId
      · have hown : isCollabOwner db collaborationId callerOrgId = true :=
          List.any_eq_true.mpr ⟨collab, hmemc, by
            rw [Bool.and_eq_true]
            exact ⟨decide_eq_true hcid, decide_eq_true how⟩⟩
        have hrole : hasSubmittingRole db collaborationId callerOrgId = true := by
          unfold hasSubmittingRole
          rw [hown, Bool.or_true]
        simp only [how, if_true]
        have hany : ([ParticipantRole.PROVIDER, ParticipantRole.CONSUMER,
            ParticipantRole.BOTH].any fun x => decide (x = ParticipantRole.BOTH)) = true := rfl
        have hex := exist_check_iff db spec hD hS
        have horg := org_check_iff db collaborationId spec
        have hcons := consent_check_iff db spec hS
        cases type with
        | TEE => simp [authorizeJobCreationSpec, hcm, hrole]
        | SMPC =>
          by_cases he : allDatasetsExist db spec = true
          · by_cases ho : allDatasetOrgsParticipate db collaborationId spec = true
            · by_cases hc3 : allDatasetsHaveConsent db spec = true
              · simp only [decide_eq_true (hex.mpr he), decide_eq_true (horg.mpr ho),
                  decide_eq_true (hcons.mpr hc3), hany]
                simp [authorizeJobCreationSpec, hcm, hrole, he, ho, hc3]
              · simp only [decide_eq_true (hex.mpr he), decide_eq_true (horg.mpr ho),
                  decide_eq_false (fun hh => hc3 (hcons.mp hh)), hany]
                simp [authorizeJobCreationSpec, hcm, hrole, he, ho, Bool.eq_false_iff.mpr hc3]
            · simp only [decide_eq_true (hex.mpr he),
                decide_eq_false (fun hh => ho (horg.mp hh)), hany]
              simp [authorizeJobCreationSpec, hcm, hrole, he, Bool.eq_false_iff.mpr ho]
          · simp only [decide_eq_false (fun hh => he (hex.mp hh)), hany]
            simp [authorizeJobCreationSpec, hcm, hrole, Bool.eq_false_iff.mpr he]
      · have hown : isCollabOwner db collaborationId callerOrgId = false := by
          unfold isCollabOwner
          rw [List.any_eq_false]
          intro c hc hcp
          rw [Bool.and_eq_true] at hcp
          have hceq : c = collab := List.inj_on_of_nodup_map hC hc hmemc
            (by rw [of_decide_eq_true hcp.1, hcid])
          rw [hceq] at hcp
          exact how (of_decide_eq_true hcp.2)
        have hrole : hasSubmittingRole db collaborationId callerOrgId = false := by
          unfold hasSubmittingRole
          rw [hnp, hown, Bool.or_false]
        simp [how, authorizeJobCreationSpec, hcm, hrole]

/-- C3: `authorizeJobCreation` implements the specification's admission
contract: the checks run in order and short-circuit on the first failure —
collaboration existence and caller membership (`COLLAB_NOT_FOUND_OR_FORBIDDEN`),
a submitting role (`NOT_A_PARTICIPANT`; `ROLE_FORBIDDEN` is unreachable since
every role is recognized for SMPC), then for SMPC specs dataset existence
(`DATASET_NOT_FOUND`), dataset-owner participation
(`DATASET_ORG_NOT_PARTICIPANT`) and per-dataset consent (`MISSING_CONSENT`) —
returning a tagged admit/deny outcome (the embedding is total, so expected
denials never escape as exceptions).  The hypotheses are primary-key
uniqueness of the collaboration and dataset tables and absence of duplicate
dataset references, under which the source's row-count comparisons coincide
with the specification's per-dataset conditions. -/
theorem authorize_checks_in_order (db : Db) (callerOrgId : OrgId)
    (collaborationId : CollabId) (type : JobType) (spec : SmpcSpec)
    (hC : (db.collaborations.map Collaboration.id).Nodup)
    (hD : (db.datasets.map Dataset.id).Nodup)
    (hS : (spec.datasets.map DatasetRef.datasetId).Nodup) :
    authorizeJobCreation db callerOrgId collaborationId type spec
      = authorizeJobCreationSpec db callerOrgId collaborationId type spec :=
  authorize_eq_spec db callerOrgId collaborationId type spec hC hD hS

/-- Witness for C3 at the scenario fixture. -/
theorem authorize_checks_in_order_witness :
    authorizeJobCreation scenarioDb 1 10 .SMPC scenarioSpec
      = authorizeJobCreationSpec scenarioDb 1 10 .SMPC scenarioSpec :=
  authorize_checks_in_order scenarioDb 1 10 .SMPC scenarioSpec
    (by decide) (by decide) (by decide)

/-- C4: `createJob` consults the policy engine and, on any denial, returns the
denial reason as a 403 error with the store unchanged — no job row and no
event is persisted.  In particular, when the earlier checks admit but some
referenced dataset has zero consent records (`allDatasetsHaveConsent` is
false), the denial reason is exactly `MISSING_CONSENT`; a spec with a
consent-free dataset that already fails an earlier check is still denied with
that earlier reason and writes nothing, by the first conjunct. -/
theorem createJob_denial_no_partial_writes :
    (∀ (db : Db) (callerOrgId : OrgId) (body : CreateJobBody) (reason : String),
      authorizeJobCreation db callerOrgId body.collaborationId body.type
        (specForPolicy body.input) = .deny reason →
      createJob db callerOrgId body
        = (.error 403 reason "Job creation not permitted.", db)) ∧
    (∀ (db : Db) (callerOrgId : OrgId) (body : CreateJobBody) (spec : SmpcSpec),
      body.type = .SMPC → body.input = .smpc spec →
      (db.collaborations.map Collaboration.id).Nodup →
      (db.datasets.map Dataset.id).Nodup →
      (spec.datasets.map DatasetRef.datasetId).Nodup →
      collabMemberOk db body.collaborationId callerOrgId = true →
      hasSubmittingRole db body.collaborationId callerOrgId = true →
      allDatasetsExist db spec = true →
      allDatasetOrgsParticipate db body.collaborationId spec = true →
      allDatasetsHaveConsent db spec = false →
      createJob db callerOrgId body
        = (.error 403 "MISSING_CONSENT" "Job creation not permitted.", db)) := by
  have hdeny : ∀ (db : Db) (callerOrgId : OrgId) (body : CreateJobBody) (reason : String),
      authorizeJobCreation db callerOrgId body.collaborationId body.type
        (specForPolicy body.input) = .deny reason →
      createJob db callerOrgId body
        = (.error 403 reason "Job creation not permitted.", db) := by
    intro db callerOrgId body reason h
    simp [createJob, h]
  refine ⟨hdeny, ?_⟩
  intro db callerOrgId body spec hty hin hC hD hS hcm hrole hex horg hcons
  apply hdeny
  rw [hty, hin]
  show authorizeJobCreation db callerOrgId body.collaborationId .SMPC spec = _
  rw [authorize_eq_spec db callerOrgId body.collaborationId .SMPC spec hC hD hS]
  simp [authorizeJobCreationSpec, hcm, hrole, hex, horg, hcons]

/-- Witness for C4 at concrete inputs: dataset 20 with its consent removed
leads to a `MISSING_CONSENT` denial and an unchanged store. -/
theorem createJob_denial_witness :
    createJob { scenarioDb with consents := [] } 1 scenarioBody
      = (.error 403 "MISSING_CONSENT" "Job creation not permitted.",
          { scenarioDb with consents := [] }) :=
  createJob_denial_no_partial_writes.2 { scenarioDb with consents := [] } 1
    scenarioBody scenarioSpec rfl rfl (by decide) (by decide) (by decide)
    (by decide) (by decide) (by decide) (by decide) (by decide)

/-- C8 (amended): the owner org's implicit full participation applies only to
the submitting-role check; the dataset-owner participation check consults
explicit CollaborationParticipant rows alone.  Hence an SMPC job whose spec
references a dataset owned by the collaboration's owner org IS denied with
`DATASET_ORG_NOT_PARTICIPANT` whenever the owner org has no explicit
participant record, even though the same owner passes the membership and role
checks for the very same request. -/
theorem owner_dataset_requires_explicit_participant
    (db : Db) (callerOrgId : OrgId) (collaborationId : CollabId) (spec : SmpcSpec)
    (hC : (db.collaborations.map Collaboration.id).Nodup)
    (hD : (db.datasets.map Dataset.id).Nodup)
    (hS : (spec.datasets.map DatasetRef.datasetId).Nodup)
    (hown : isCollabOwner db collaborationId callerOrgId = true)
    (hnp : isParticipant db collaborationId callerOrgId = false)
    (hex : allDatasetsExist db spec = true)
    (hds : ∃ ref ∈ spec.datasets, ∃ d ∈ db.datasets,
      d.id = ref.datasetId ∧ d.orgId = callerOrgId) :
    authorizeJobCreation db callerOrgId collaborationId .SMPC spec
      = .deny "DATASET_ORG_NOT_PARTICIPANT" := by
  have hcm : collabMemberOk db collaborationId callerOrgId = true := by
    obtain ⟨c, hc, hcp⟩ := List.any_eq_true.mp hown
    rw [Bool.and_eq_true] at hcp
    exact List.any_eq_true.mpr ⟨c, hc, by rw [hcp.1, hcp.2, Bool.true_or]; rfl⟩
  have hrole : hasSubmittingRole db collaborationId callerOrgId = true := by
    unfold hasSubmittingRole
    rw [hown, Bool.or_true]
  have horg : allDatasetOrgsParticipate db collaborationId spec = false := by
    rw [Bool.eq_false_iff]
    intro hall
    obtain ⟨ref, href, d, hd, hid, horgid⟩ := hds
    have h1 := List.all_eq_true.mp (List.all_eq_true.mp hall ref href) d hd
    rw [Bool.or_eq_true, Bool.not_eq_true', decide_eq_false_iff_not] at h1
    rcases h1 with hne | hp
    · exact hne hid
    · rw [horgid] at hp
      rw [hp] at hnp
      exact Bool.noConfusion hnp
  rw [authorize_eq_spec db callerOrgId collaborationId .SMPC spec hC hD hS]
  simp [authorizeJobCreationSpec, hcm, hrole, hex, horg]

/-- Witness for the amended C8 at the concrete owner-dataset store. -/
theorem owner_dataset_requires_explicit_participant_witness :
    authorizeJobCreation ownerDatasetDb 1 10 .SMPC
      { operation := .COUNT, datasets := [⟨20, ["g"]⟩] }
      = .deny "DATASET_ORG_NOT_PARTICIPANT" :=
  owner_dataset_requires_explicit_participant ownerDatasetDb 1 10
    { operation := .COUNT, datasets := [⟨20, ["g"]⟩] }
    (by decide) (by decide) (by decide) (by decide) (by decide) (by decide)
    ⟨⟨20, ["g"]⟩, by decide, ⟨20, 1⟩, by decide, rfl, rfl⟩

theorem filter_by_key_length {α β : Type} (l : List α) (f : α → β) (p : β → Bool) :
    (l.filter (fun a => p (f a))).length = ((l.map f).filter p).length := by
  rw [List.filter_map, List.length_map]
  rfl

/-- C10: the input schema allows the same dataset id to occur twice in an SMPC
spec's `datasets` array; for any such spec the `findMany` row count (distinct
rows) is strictly below the reference-list length, so `authorizeJobCreation`
denies with `DATASET_NOT_FOUND` even when the membership and role checks pass
and every referenced dataset exists, is owned by a participant and has
consent. -/
theorem duplicate_dataset_refs_denied
    (db : Db) (callerOrgId : OrgId) (collaborationId : CollabId) (spec : SmpcSpec)
    (hC : (db.collaborations.map Collaboration.id).Nodup)
    (hD : (db.datasets.map Dataset.id).Nodup)
    (hdup : ¬ (spec.datasets.map DatasetRef.datasetId).Nodup)
    (hcm : collabMemberOk db collaborationId callerOrgId = true)
    (hrole : hasSubmittingRole db collaborationId callerOrgId = true)
    (_hex : allDatasetsExist db spec = true)
    (_horg : allDatasetOrgsParticipate db collaborationId spec = true)
    (_hcons : allDatasetsHaveConsent db spec = true) :
    authorizeJobCreation db callerOrgId collaborationId .SMPC spec
      = .deny "DATASET_NOT_FOUND" := by
  have hlen : (db.datasets.filter (fun d =>
      (spec.datasets.map (·.datasetId)).contains d.id)).length
      ≠ (spec.datasets.map (·.datasetId)).length := by
    have h1 := filter_by_key_length db.datasets Dataset.id
      (fun i => (spec.datasets.map (·.datasetId)).contains i)
    rw [h1, ← ((hD.filter _).dedup)]
    exact Nat.ne_of_lt (lt_of_le_of_lt (dedup_filter_length_le _ _)
      (dedup_length_lt_of_not_nodup _ hdup))
  have hlen' := decide_eq_false hlen
  unfold authorizeJobCreation
  cases hfind : db.collaborations.find? (fun c =>
      decide (c.id = collaborationId) &&
      (decide (c.ownerOrgId = callerOrgId) ||
        db.participants.any (fun p =>
          decide (p.collaborationId = collaborationId) && decide (p.orgId = callerOrgId)))) with
  | none =>
    obtain ⟨c, hcmem, hcpred⟩ := List.any_eq_true.mp hcm
    exact absurd hcpred (List.find?_eq_none.mp hfind c hcmem)
  | some collab =>
    have hcid : collab.id = collaborationId := by
      have h := List.find?_some hfind
      rw [Bool.and_eq_true] at h
      exact of_decide_eq_true h.1
    cases hpart : db.participants.find? (fun p =>
        decide (p.collaborationId = collaborationId) && decide (p.orgId = callerOrgId)) with
    | some prow =>
      have hany : ([ParticipantRole.PROVIDER, ParticipantRole.CONSUMER,
          ParticipantRole.BOTH].any fun x => decide (x = prow.role)) = true := by
        cases prow.role <;> rfl
      simp only [hlen', hany]
      simp
    | none =>
      have hnp : isParticipant db collaborationId callerOrgId = false := by
        unfold isParticipant
        rw [List.any_eq_false]
        exact List.find?_eq_none.mp hpart
      have hown : isCollabOwner db collaborationId callerOrgId = true := by
        unfold hasSubmittingRole at hrole
        rw [hnp, Bool.false_or] at hrole
        exact hrole
      have how : collab.ownerOrgId = callerOrgId := by
        obtain ⟨c, hc, hcp⟩ := List.any_eq_true.mp hown
        rw [Bool.and_eq_true] at hcp
        have hceq : c = collab := List.inj_on_of_nodup_map hC hc
          (List.mem_of_find?_eq_some hfind) (by rw [of_decide_eq_true hcp.1, hcid])
        rw [← hceq]
        exact of_decide_eq_true hcp.2
      simp only [how, if_true, hlen']
      simp

/-- A store where every admission check would pass for a duplicate-free spec:
owner org 1, participant (2, BOTH), dataset 20 owned by org 2 with consent. -/
def dupRefDb : Db := {
  collaborations := [⟨10, 1⟩],
  participants := [⟨10, 2, .BOTH⟩],
  datasets := [⟨20, 2⟩],
  consents := [⟨20⟩],
  jobs := [], events := [], nextJobId := 0 }

/-- Witness for C10: the spec references dataset 20 twice and is denied with
`DATASET_NOT_FOUND` although dataset 20 exists, is owned by participant org 2
and has a consent record. -/
theorem duplicate_dataset_refs_denied_witness :
    authorizeJobCreation dupRefDb 1 10 .SMPC
      { operation := .COUNT, datasets := [⟨20, ["f"]⟩, ⟨20, ["g"]⟩] }
      = .deny "DATASET_NOT_FOUND" :=
  duplicate_dataset_refs_denied dupRefDb 1 10
    { operation := .COUNT, datasets := [⟨20, ["f"]⟩, ⟨20, ["g"]⟩] }
    (by decide) (by decide) (by decide) (by decide) (by decide) (by decide)
    (by decide) (by decide)

/-- C6 (amended): the traversal validation — reject a filename containing a
parent-directory segment or an absolute filename — runs only on the download
path: whenever the filename derived from a stored artifact URI contains `..`
or is absolute, `downloadJobArtifact` answers 400 `INVALID_FILENAME` before
resolving any path; the artifact store's write path, by contrast, performs no
filename validation and resolves a traversal filename outside the job's
directory (filename `../../etc/passwd` for job `j2` under root
`/srv/artifacts` is written to `/srv/etc/passwd`). -/
theorem traversal_validation_download_only :
    (∀ (env : ArtifactEnv) (db : Db) (jobId : JobId) (callerOrgId : OrgId)
        (fileOnDisk : Bool) (j : Job) (u : Str),
      findScopedJob db jobId callerOrgId = some j →
      j.artifactUri = some u →
      (j.status = .SUCCEEDED ∨ j.status = .FAILED) →
      (containsSubstr "..".toList (filenameForDownload (some u)) = true ∨
        isAbsolute (filenameForDownload (some u)) = true) →
      downloadJobArtifact env db jobId callerOrgId fileOnDisk
        = .error 400 "INVALID_FILENAME") ∧
    writeJsonArtifactPath scenarioEnv "j2".toList "../../etc/passwd".toList
      = "/srv/etc/passwd".toList := by
  constructor
  · intro env db jobId callerOrgId fileOnDisk j u hfind hart hstat htrav
    have hst : (decide (j.status = .SUCCEEDED) || decide (j.status = .FAILED)) = true := by
      rcases hstat with h | h <;> simp [h]
    have htr : (containsSubstr "..".toList (filenameForDownload (some u))
        || isAbsolute (filenameForDownload (some u))) = true := by
      rcases htrav with h | h
      · rw [h, Bool.true_or]
      · rw [h, Bool.or_true]
    simp only [downloadJobArtifact, hfind, hart, hst, Bool.not_true, htr]
    simp
  · decide

/-- A store whose only job (id 5, SUCCEEDED, in caller 1's scope) carries an
artifact URI whose final segment contains a parent-directory marker. -/
def traversalUriDb : Db := {
  collaborations := [⟨10, 1⟩], participants := [], datasets := [], consents := [],
  jobs := [{ id := 5, collaborationId := 10, type := .SMPC, status := .SUCCEEDED,
             input := .tee, artifactUri := some "file:///a/b/..evil".toList }],
  events := [], nextJobId := 6 }

/-- Witness for the amended C6: the download endpoint rejects the extracted
filename `..evil` with 400 `INVALID_FILENAME`. -/
theorem traversal_validation_download_only_witness :
    downloadJobArtifact scenarioEnv traversalUriDb 5 1 true
      = .error 400 "INVALID_FILENAME" :=
  traversal_validation_download_only.1 scenarioEnv traversalUriDb 5 1 true
    { id := 5, collaborationId := 10, type := .SMPC, status := .SUCCEEDED,
      input := .tee, artifactUri := some "file:///a/b/..evil".toList }
    "file:///a/b/..evil".toList (by decide) rfl (Or.inl rfl) (Or.inl (by decide))

/-! ### String and path lemmas for the artifact round-trip (C7) -/

theorem isPrefixOf_self_append (l r : Str) : l.isPrefixOf (l ++ r) = true := by
  induction l with
  | nil => simp [List.isPrefixOf]
  | cons c t ih => simp [List.isPrefixOf, ih]

theorem afterFirstOcc_self_append (pat rest : Str) :
    afterFirstOcc pat (pat ++ rest) = some rest := by
  cases pat with
  | nil =>
    cases rest with
    | nil => simp [afterFirstOcc, List.isPrefixOf]
    | cons c t => simp [afterFirstOcc, List.isPrefixOf]
  | cons p ps =>
    have h : (p :: ps).isPrefixOf (p :: (ps ++ rest)) = true := by
      have h0 := isPrefixOf_self_append (p :: ps) rest
      rwa [List.cons_append] at h0
    show afterFirstOcc (p :: ps) (p :: (ps ++ rest)) = some rest
    rw [afterFirstOcc, if_pos h]
    simp [List.length_cons, List.drop_succ_cons, List.drop_left]

theorem takeWhile_all_append_fail (p : Char → Bool) (l₁ l₂ : Str) (b : Char)
    (h1 : ∀ a ∈ l₁, p a = true) (hb : p b = false) :
    (l₁ ++ b :: l₂).takeWhile p = l₁ := by
  induction l₁ with
  | nil => simp [List.takeWhile, hb]
  | cons c t ih =>
    have hc : p c = true := h1 c (List.mem_cons_self c t)
    simp only [List.cons_append, List.takeWhile, hc, List.append_eq]
    rw [ih (fun a ha => h1 a (List.mem_cons_of_mem c ha))]

theorem afterLastSlash_append (x c : Str) (hc : ∀ ch ∈ c, ch ≠ '/') :
    afterLastSlash (x ++ '/' :: c) = some c := by
  have hmem : '/' ∈ x ++ '/' :: c := List.mem_append_right _ (List.mem_cons_self _ _)
  have hrev : (x ++ '/' :: c).reverse = c.reverse ++ '/' :: x.reverse := by
    rw [List.reverse_append, List.reverse_cons, List.append_assoc, List.singleton_append]
  unfold afterLastSlash
  rw [if_pos (by simpa using hmem), hrev,
    takeWhile_all_append_fail _ c.reverse x.reverse '/'
      (fun a ha => by
        simp only [Bool.not_eq_true', decide_eq_false_iff_not]
        exact hc a (List.mem_reverse.mp ha))
      rfl,
    List.reverse_reverse]

theorem run_terminator_false (l : Str) (hs : '/' ∈ l) (hq : '?' ∉ l) :
    (decide (l.drop (l.takeWhile
        (fun ch => !decide (ch = '/') && !decide (ch = '?'))).length = []) ||
      decide ((l.drop (l.takeWhile
        (fun ch => !decide (ch = '/') && !decide (ch = '?'))).length).head? = some '?'))
      = false := by
  induction l with
  | nil => cases hs
  | cons a t ih =>
    by_cases ha : (!decide (a = '/') && !decide (a = '?')) = true
    · have has : a ≠ '/' := by
        rw [Bool.and_eq_true, Bool.not_eq_true', decide_eq_false_iff_not] at ha
        exact ha.1
      have hst : '/' ∈ t := by
        rcases List.mem_cons.mp hs with h | h
        · exact absurd h.symm has
        · exact h
      have hqt : '?' ∉ t := fun h => hq (List.mem_cons_of_mem a h)
      simp only [List.takeWhile, ha, List.length_cons, List.drop_succ_cons]
      exact ih hst hqt
    · have haq : a ≠ '?' := fun h => hq (h ▸ List.mem_cons_self a t)
      have has : a = '/' := by
        rcases Bool.not_eq_true _ ▸ ha with h
        rw [Bool.and_eq_true] at ha
        by_cases h1 : a = '/'
        · exact h1
        · exfalso
          apply ha
          constructor
          · rw [Bool.not_eq_true', decide_eq_false_iff_not]
            exact h1
          · rw [Bool.not_eq_true', decide_eq_false_iff_not]
            exact haq
      subst has
      simp [List.takeWhile]

theorem takeWhile_all (p : Char → Bool) (l : Str) (h : ∀ a ∈ l, p a = true) :
    l.takeWhile p = l := by
  induction l with
  | nil => rfl
  | cons a t ih =>
    simp only [List.takeWhile, h a (List.mem_cons_self a t)]
    rw [ih (fun b hb => h b (List.mem_cons_of_mem a hb))]

theorem notq_mem_suffix (a' c : Str) (hq : '?' ∉ a')
    (hc : ∀ ch ∈ c, ch ≠ '/' ∧ ch ≠ '?') : '?' ∉ a' ++ '/' :: c := by
  intro h
  rcases List.mem_append.mp h with h | h
  · exact hq h
  · rcases List.mem_cons.mp h with h | h
    · exact absurd h (by decide)
    · exact (hc '?' h).2 rfl

theorem lastSegmentMatch_suffix (a c : Str) (hne : c ≠ [])
    (hc : ∀ ch ∈ c, ch ≠ '/' ∧ ch ≠ '?') (hqa : '?' ∉ a) :
    lastSegmentMatch (a ++ '/' :: c) = some c := by
  induction a with
  | nil =>
    show lastSegmentMatch ('/' :: c) = some c
    rw [lastSegmentMatch]
    have hrun : c.takeWhile (fun ch => !decide (ch = '/') && !decide (ch = '?')) = c :=
      takeWhile_all _ c (fun ch hch => by
        rw [Bool.and_eq_true, Bool.not_eq_true', Bool.not_eq_true',
          decide_eq_false_iff_not, decide_eq_false_iff_not]
        exact hc ch hch)
    have hie : c.isEmpty = false := by
      cases c with
      | nil => exact absurd rfl hne
      | cons x xs => rfl
    simp [hrun, hie, List.drop_length, Option.orElse]
  | cons ch a' ih =>
    have hq' : '?' ∉ a' := fun h => hqa (List.mem_cons_of_mem ch h)
    have hterm := run_terminator_false (a' ++ '/' :: c)
      (List.mem_append_right _ (List.mem_cons_self _ _)) (notq_mem_suffix a' c hq' hc)
    show lastSegmentMatch (ch :: (a' ++ '/' :: c)) = some c
    rw [lastSegmentMatch]
    by_cases hch : ch = '/'
    · subst hch
      simp only [hterm, Bool.and_false]
      simp [Option.orElse, ih hq']
    · simp [hch, ih hq', Option.orElse]

theorem artifactsUrlMatch_of_noSlash (l : Str) (h : ∀ ch ∈ l, ch ≠ '/') :
    artifactsUrlMatch l = none := by
  induction l with
  | nil => rfl
  | cons a t ih =>
    have hpre : ("/artifacts/".toList).isPrefixOf (a :: t) = false := by
      rw [Bool.eq_false_iff]
      intro hp
      obtain ⟨t0, ht0⟩ := List.isPrefixOf_iff_prefix.mp hp
      have : a = '/' := by
        have := congrArg (fun l => l.head?) ht0
        simpa using this.symm
      exact h a (List.mem_cons_self a t) this
    rw [artifactsUrlMatch]
    simp only [hpre, Bool.false_eq_true, if_false, Option.orElse]
    exact ih (fun ch hch => h ch (List.mem_cons_of_mem a hch))

theorem artifactsUrlMatch_sound (s r : Str) (hq : '?' ∉ s)
    (h : artifactsUrlMatch s = some r) :
    ∃ x, s = x ++ '/' :: r ∧ r ≠ [] ∧ ∀ ch ∈ r, ch ≠ '/' := by
  induction s with
  | nil => exact Option.noConfusion h
  | cons a t ih =>
    rw [artifactsUrlMatch] at h
    have hrec : artifactsUrlMatch t = some r →
        ∃ x, a :: t = x ++ '/' :: r ∧ r ≠ [] ∧ ∀ ch ∈ r, ch ≠ '/' := by
      intro ht
      obtain ⟨x, hx, hner, hslash⟩ := ih (fun hm => hq (List.mem_cons_of_mem a hm)) ht
      exact ⟨a :: x, by rw [List.cons_append, hx], hner, hslash⟩
    split at h
    next hpre =>
      simp only [] at h
      split at h
      next hseg =>
        simp only [Option.orElse] at h
        exact hrec h
      next hseg =>
        split at h
        next tail heq =>
          split at h
          next hcond =>
            simp only [Option.orElse] at h
            injection h with hrr
            obtain ⟨t0, ht0⟩ := List.isPrefixOf_iff_prefix.mp hpre
            have hlen11 : ("/artifacts/".toList).length = 11 := rfl
            have ht0d : t0 = List.drop 11 (a :: t) := by
              rw [← ht0, ← hlen11, List.drop_left]
            rw [Bool.and_eq_true] at hcond
            have hrune : (List.takeWhile
                (fun ch => !decide (ch = '/') && !decide (ch = '?')) tail).isEmpty = false := by
              rw [← Bool.not_eq_true]
              intro hcontra
              rw [hcontra] at hcond
              exact Bool.noConfusion hcond.1
            have hsub : tail ⊆ a :: t := by
              intro x hx
              have h1 : x ∈ '/' :: tail := List.mem_cons_of_mem _ hx
              rw [← heq] at h1
              have h2 := List.drop_subset _ _ h1
              exact List.drop_subset _ _ h2
            have hterm : List.drop (List.takeWhile
                (fun ch => !decide (ch = '/') && !decide (ch = '?')) tail).length tail = [] := by
              rcases (Bool.or_eq_true _ _ ▸ hcond.2 :
                  _ = true ∨ _ = true) with h2 | h2
              · exact of_decide_eq_true h2
              · exfalso
                have h3 := of_decide_eq_true h2
                have h4 : '?' ∈ List.drop (List.takeWhile
                    (fun ch => !decide (ch = '/') && !decide (ch = '?')) tail).length tail := by
                  cases hdc : List.drop (List.takeWhile
                      (fun ch => !decide (ch = '/') && !decide (ch = '?')) tail).length tail with
                  | nil => rw [hdc] at h3; exact Option.noConfusion h3
                  | cons y ys =>
                    rw [hdc] at h3
                    have hy : y = '?' := Option.some.inj h3
                    rw [hy]
                    exact List.mem_cons_self _ _
                exact hq (hsub (List.drop_subset _ _ h4))
            have hruntail : List.takeWhile
                (fun ch => !decide (ch = '/') && !decide (ch = '?')) tail = tail := by
              apply (List.takeWhile_prefix _).eq_of_length
              have hle1 := (List.takeWhile_prefix
                (l := tail) (fun ch => !decide (ch = '/') && !decide (ch = '?'))).length_le
              have hle2 := List.drop_eq_nil_iff.mp hterm
              exact Nat.le_antisymm hle1 hle2
            refine ⟨"/artifacts/".toList ++ List.takeWhile (fun ch => !decide (ch = '/'))
              (List.drop 11 (a :: t)), ?_, ?_, ?_⟩
            · have hbody := List.take_append_drop (List.takeWhile (fun ch => !decide (ch = '/'))
                (List.drop 11 (a :: t))).length (List.drop 11 (a :: t))
              rw [heq] at hbody
              have htake : List.take (List.takeWhile (fun ch => !decide (ch = '/'))
                  (List.drop 11 (a :: t))).length (List.drop 11 (a :: t))
                  = List.takeWhile (fun ch => !decide (ch = '/')) (List.drop 11 (a :: t)) :=
                (List.prefix_iff_eq_take.mp (List.takeWhile_prefix _)).symm
              have htr : tail = r := by
                rw [← hruntail]
                exact hrr
              rw [htake, htr] at hbody
              rw [List.append_assoc, hbody, ← ht0d, ht0]
            · intro hr0
              rw [← hrr, hruntail] at hr0
              rw [hr0] at hrune
              exact Bool.noConfusion hrune
            · intro chx hchx
              rw [← hrr] at hchx
              have := List.mem_takeWhile_imp hchx
              rw [Bool.and_eq_true, Bool.not_eq_true', decide_eq_false_iff_not] at this
              exact this.1
          next hcond =>
            simp only [Option.orElse] at h
            exact hrec h
        next x heq =>
          simp only [Option.orElse] at h
          exact hrec h
    next hpre =>
      simp only [Option.orElse] at h
      exact hrec h

theorem fileUriMatch_prefix_case (x c : Str) (hc : ∀ ch ∈ c, ch ≠ '/') (hne : c ≠ []) :
    fileUriMatch ("file://".toList ++ (x ++ '/' :: c)) = some c := by
  have hie : c.isEmpty = false := by
    cases c with
    | nil => exact absurd rfl hne
    | cons y ys => rfl
  unfold fileUriMatch
  rw [afterFirstOcc_self_append]
  simp [afterLastSlash_append x c hc, hie]

theorem fileUriMatch_of_not_contains (s : Str)
    (h : containsSubstr "file://".toList s = false) : fileUriMatch s = none := by
  unfold containsSubstr at h
  unfold fileUriMatch
  cases hafo : afterFirstOcc "file://".toList s with
  | none => rfl
  | some t =>
    rw [hafo] at h
    simp at h

theorem splitSegAux_no_slash (s : Str) (h : ∀ ch ∈ s, ch ≠ '/') :
    ∀ acc : Str, splitSegAux s acc = [acc.reverse ++ s] := by
  induction s with
  | nil => intro acc; simp [splitSegAux]
  | cons ch t ih =>
    intro acc
    rw [splitSegAux, if_neg (fun hcontra => h ch (List.mem_cons_self ch t) hcontra)]
    rw [ih (fun a ha => h a (List.mem_cons_of_mem ch ha)) (ch :: acc)]
    simp

theorem pathSegments_no_slash (s : Str) (h : ∀ ch ∈ s, ch ≠ '/') :
    pathSegments s = [s] := by
  unfold pathSegments
  rw [splitSegAux_no_slash s h []]
  rfl

theorem normStep_result (X : List Str) :
    normStep X ("result.json".toList) = X ++ ["result.json".toList] := rfl

theorem normSegments_append_result (L : List Str) :
    normSegments (L ++ ["result.json".toList])
      = normSegments L ++ ["result.json".toList] := by
  unfold normSegments
  rw [List.foldl_append]
  rfl

theorem joinSegs_append_singleton (X : List Str) (y : Str) (hX : X ≠ []) :
    joinSegs (X ++ [y]) = joinSegs X ++ '/' :: y := by
  induction X with
  | nil => contradiction
  | cons s rest ih =>
    cases rest with
    | nil => rfl
    | cons s2 rest2 =>
      calc joinSegs ((s :: s2 :: rest2) ++ [y])
          = s ++ '/' :: joinSegs (s2 :: (rest2 ++ [y])) := rfl
        _ = s ++ '/' :: (joinSegs (s2 :: rest2) ++ '/' :: y) := by
            rw [List.cons_append] at ih
            rw [ih (List.cons_ne_nil s2 rest2)]
        _ = (s ++ '/' :: joinSegs (s2 :: rest2)) ++ '/' :: y := by
            simp [List.append_assoc]
        _ = joinSegs (s :: s2 :: rest2) ++ '/' :: y := rfl

theorem pathJoin_result_suffix (root jobId : Str) (habs : isAbsolute root = true) :
    ∃ x, pathJoin [root, jobId, "result.json".toList]
      = x ++ '/' :: "result.json".toList := by
  have hrj : pathSegments ("result.json".toList) = ["result.json".toList] :=
    pathSegments_no_slash _ (by decide)
  have hflat : ([root, jobId, "result.json".toList].map pathSegments).flatten
      = (pathSegments root ++ pathSegments jobId) ++ ["result.json".toList] := by
    show pathSegments root ++ (pathSegments jobId
      ++ (pathSegments ("result.json".toList) ++ [])) = _
    rw [hrj, List.append_nil, List.append_assoc]
  cases hX : normSegments (pathSegments root ++ pathSegments jobId) with
  | nil =>
    refine ⟨[], ?_⟩
    unfold pathJoin
    simp only [hflat, normSegments_append_result, hX]
    simp [habs, joinSegs]
  | cons s X2 =>
    refine ⟨'/' :: joinSegs (s :: X2), ?_⟩
    unfold pathJoin
    simp only [hflat, normSegments_append_result, hX,
      joinSegs_append_singleton _ _ (List.cons_ne_nil s X2)]
    simp [habs]

/-- C7: writing an artifact for any job with filename `result.json` and then
resolving the filename from the returned URI yields exactly `result.json`,
whether the URI was built from a configured public base or as a store-local
`file://` reference.  For the store-local form the only assumption is that
the configured artifact root is an absolute path (the environment config
resolves it with `path.resolve`); for the public form the built URI must not
contain a query marker or an embedded `file://` (true of any HTTP base URL
and UUID job id). -/
theorem artifact_filename_roundtrip (env : ArtifactEnv) (jobId : Str)
    (habs : env.publicBase = none → isAbsolute env.root = true)
    (hbase : ∀ base, env.publicBase = some base →
      '?' ∉ buildArtifactUri env jobId ("result.json".toList) ∧
      containsSubstr "file://".toList
        (buildArtifactUri env jobId ("result.json".toList)) = false) :
    extractFilenameFromUri (some (writeJsonArtifact env jobId ("result.json".toList)))
      = some ("result.json".toList) := by
  show extractFilenameFromUri (some (buildArtifactUri env jobId ("result.json".toList))) = _
  cases hpb : env.publicBase with
  | none =>
    obtain ⟨x, hx⟩ := pathJoin_result_suffix env.root jobId (habs hpb)
    have hshape : buildArtifactUri env jobId ("result.json".toList)
        = "file://".toList ++ (x ++ '/' :: ("result.json".toList)) := by
      unfold buildArtifactUri
      rw [hpb, hx]
    rw [hshape]
    simp only [extractFilenameFromUri,
      fileUriMatch_prefix_case x ("result.json".toList) (by decide) (by decide)]
  | some base =>
    obtain ⟨hq, hnf⟩ := hbase base hpb
    have hshape : buildArtifactUri env jobId ("result.json".toList)
        = ((base ++ ['/']) ++ jobId) ++ '/' :: ("result.json".toList) := by
      unfold buildArtifactUri
      rw [hpb]
      simp [List.append_assoc]
    rw [hshape] at hq hnf ⊢
    have hq' : '?' ∉ (base ++ ['/']) ++ jobId := fun h => hq (List.mem_append_left _ h)
    simp only [extractFilenameFromUri, fileUriMatch_of_not_contains _ hnf]
    rcases hart : artifactsUrlMatch (((base ++ ['/']) ++ jobId)
        ++ '/' :: ("result.json".toList)) with _ | r
    · simp only [hart,
        lastSegmentMatch_suffix ((base ++ ['/']) ++ jobId) ("result.json".toList)
          (by decide) (by decide) hq']
    · simp only [hart]
      obtain ⟨x2, hx2, hner, hslash⟩ := artifactsUrlMatch_sound _ r
        (notq_mem_suffix _ _ hq' (by decide)) hart
      have h1 := afterLastSlash_append x2 r hslash
      rw [← hx2] at h1
      have h2 := afterLastSlash_append ((base ++ ['/']) ++ jobId)
        ("result.json".toList) (by decide)
      rw [h2] at h1
      rw [Option.some.injEq] at h1
      rw [h1]

/-- Witness for C7 at a concrete public-base configuration and job id. -/
theorem artifact_filename_roundtrip_witness :
    extractFilenameFromUri (some (writeJsonArtifact
      { root := "/srv/artifacts".toList,
        publicBase := some ("http://localhost:4000/artifacts".toList) }
      ("7f".toList) ("result.json".toList))) = some ("result.json".toList) :=
  artifact_filename_roundtrip
    { root := "/srv/artifacts".toList,
      publicBase := some ("http://localhost:4000/artifacts".toList) }
    ("7f".toList)
    (fun h => Option.noConfusion h)
    (fun base hb => by
      cases hb
      exact ⟨by decide, by decide⟩)

end Outliers
